import Mathlib

/-!
Verification development for the TalentScout hiring-assistant conversation
core: the stage machine in `utils/conversation_manager.py`, the field
validators in `utils/validators.py`, and the message dispatch in `app.py`
(`handle_user_message`).  Strings are modelled over `List Char` restricted
to the ASCII behaviour the source exercises; wall-clock timestamps carried
in the Python conversation log are external I/O and are omitted from the
log entries.
-/

/-- ASCII whitespace, matching what Python `str.strip` / `str.split` and the
regex class `\s` recognise on the ASCII inputs in scope. -/
def pyIsSpace (c : Char) : Bool :=
  c = ' ' || c = '\t' || c = '\n' || c = '\r' || c = Char.ofNat 11 || c = Char.ofNat 12

/-- Python `str.strip()` on a character list. -/
def pyStripL (l : List Char) : List Char :=
  ((l.dropWhile pyIsSpace).reverse.dropWhile pyIsSpace).reverse

/-- Python `str.lower()` (ASCII). -/
def pyLower (l : List Char) : List Char :=
  l.map Char.toLower

/-- Helper for `pySplitWs`: accumulates the current word (reversed). -/
def split_ws_aux : List Char → List Char → List (List Char)
  | [], acc => if acc = [] then [] else [acc.reverse]
  | c :: rest, acc =>
    if pyIsSpace c then
      if acc = [] then split_ws_aux rest []
      else acc.reverse :: split_ws_aux rest []
    else split_ws_aux rest (c :: acc)

/-- Python `str.split()` with no argument: split on whitespace runs,
dropping empty pieces. -/
def pySplitWs (l : List Char) : List (List Char) :=
  split_ws_aux l []

/-- Python `sep.join(words)`. -/
def join_with (sep : List Char) : List (List Char) → List Char
  | [] => []
  | [w] => w
  | w :: ws => w ++ sep ++ join_with sep ws

/-- Helper for `pyTitle`: the flag records whether the previous character
was a cased (here: ASCII alphabetic) character. -/
def pyTitle_aux : Bool → List Char → List Char
  | _, [] => []
  | prevAlpha, c :: rest =>
    if c.isAlpha then
      (if prevAlpha then c.toLower else c.toUpper) :: pyTitle_aux true rest
    else
      c :: pyTitle_aux false rest

/-- Python `str.title()` (ASCII): uppercase a letter that follows a
non-letter, lowercase the other letters. -/
def pyTitle (l : List Char) : List Char :=
  pyTitle_aux false l

/-- Helper for `digit_runs`: accumulates the current digit run (reversed). -/
def digit_runs_aux : List Char → List Char → List (List Char)
  | [], acc => if acc = [] then [] else [acc.reverse]
  | c :: rest, acc =>
    if c.isDigit then digit_runs_aux rest (c :: acc)
    else if acc = [] then digit_runs_aux rest []
    else acc.reverse :: digit_runs_aux rest []

/-- Python `re.findall(r"\d+", s)`: the maximal digit runs in order. -/
def digit_runs (l : List Char) : List (List Char) :=
  digit_runs_aux l []

/-- Python `int` applied to a digit string. -/
def digits_to_nat (l : List Char) : Nat :=
  l.foldl (fun acc c => acc * 10 + (c.toNat - 48)) 0

/-- Python substring containment `needle in hay`. -/
def is_substring (needle : List Char) : List Char → Bool
  | [] => needle.isEmpty
  | c :: t => needle.isPrefixOf (c :: t) || is_substring needle t

/-- Python `str.split(sep)` for a single-character separator: empty pieces
are kept. -/
def split_on_char (sep : Char) : List Char → List (List Char)
  | [] => [[]]
  | c :: rest =>
    if c = sep then [] :: split_on_char sep rest
    else
      match split_on_char sep rest with
      | [] => [[c]]
      | w :: ws => (c :: w) :: ws

/-- Character class of the name regex `[a-zA-Z\s.\-']` in
`Validator.validate_name` (39 is the apostrophe). -/
def name_char_ok (c : Char) : Bool :=
  c.isAlpha || pyIsSpace c || c = '.' || c = '-' || c = Char.ofNat 39

/-- `Validator.validate_name` from `utils/validators.py`. -/
def validate_name (name : String) : Bool × String :=
  if name = "" then (false, "Name cannot be empty.")
  else
    let n := pyStripL name.data
    if n.length < 2 then (false, "Name must be at least 2 characters long.")
    else if n.all name_char_ok then
      (true, (pyTitle (join_with [' '] (pySplitWs n))).asString)
    else
      (false, "Name can only contain letters, spaces, periods, hyphens, and apostrophes.")

/-- Modelled from the spec: the external `email_validator` library used by
`Validator.validate_email` is not part of this repository.  Per the spec the
address must parse as local-part@domain; the canonical form of such an
ASCII address is the address itself. -/
def email_validator_ok (l : List Char) : Bool :=
  match split_on_char '@' l with
  | [lp, dom] => !lp.isEmpty && !dom.isEmpty && dom.contains '.'
  | _ => false

/-- `Validator.validate_email` from `utils/validators.py`; the library call
is replaced by the spec-modelled `email_validator_ok`. -/
def validate_email (email : String) : Bool × String :=
  if email = "" then (false, "Email cannot be empty.")
  else
    let e := pyStripL email.data
    if email_validator_ok e then (true, e.asString)
    else (false, "Invalid email format.")

/-- Separator characters tolerated inside a phone number. -/
def is_phone_sep (c : Char) : Bool :=
  c = ' ' || c = '-' || c = '(' || c = ')' || c = '.'

/-- Modelled from the spec: `phonenumbers.parse(phone, None)` from the
external `phonenumbers` library.  With no default region the number must
carry an explicit country-code prefix introduced by a leading plus sign;
anything else raises a parse error (here: `none`).  On success it yields
the digit string (country code followed by national number). -/
def phonenumbers_parse (l : List Char) : Option (List Char) :=
  match l with
  | [] => none
  | c :: rest =>
    if c = '+' then
      let ds := rest.filter fun d => !is_phone_sep d
      if ds.isEmpty then none
      else if ds.all Char.isDigit then some ds else none
    else none

/-- Modelled from the spec: `phonenumbers.is_valid_number`, scoped to the
country code 1 with a ten-digit national number, which covers the spec's
scenario inputs. -/
def phonenumbers_is_valid (ds : List Char) : Bool :=
  match ds with
  | [] => false
  | c :: national => c = '1' && national.length = 10

/-- Modelled from the spec: `phonenumbers.format_number` in international
format, scoped to country code 1 (`+1 AAA-BBB-CCCC`). -/
def phonenumbers_format_international (ds : List Char) : String :=
  match ds with
  | '1' :: national =>
    (['+', '1', ' '] ++ national.take 3 ++ ['-'] ++ (national.drop 3).take 3
      ++ ['-'] ++ national.drop 6).asString
  | _ => (('+' :: ds)).asString

/-- `Validator.validate_phone` from `utils/validators.py`; the library calls
are the spec-modelled functions above. -/
def validate_phone (phone : String) : Bool × String :=
  if phone = "" then (false, "Phone number cannot be empty.")
  else
    let p := pyStripL phone.data
    -- the source also computes `phone_clean` here but never uses it
    match phonenumbers_parse p with
    | none =>
      (false, "Invalid phone number format. Please provide an international phone number with country code (e.g., +1 234 567 8900).")
    | some ds =>
      if phonenumbers_is_valid ds then (true, phonenumbers_format_international ds)
      else
        (false, "Invalid phone number. Please provide a valid international phone number with country code (e.g., +1 234 567 8900).")

/-- One leftmost-match attempt of the regex `\s*(years?|yrs?|year|yr)\s*`
at the head of the list; returns the remainder after the match. -/
def try_match_year (l : List Char) : Option (List Char) :=
  let l1 := l.dropWhile pyIsSpace
  if ['y', 'e', 'a', 'r'].isPrefixOf l1 then
    let l2 := l1.drop 4
    let l3 := if l2.head? = some 's' then l2.drop 1 else l2
    some (l3.dropWhile pyIsSpace)
  else if ['y', 'r'].isPrefixOf l1 then
    let l2 := l1.drop 2
    let l3 := if l2.head? = some 's' then l2.drop 1 else l2
    some (l3.dropWhile pyIsSpace)
  else none

/-- Fuelled scan for `strip_year_tokens`; every step consumes at least one
character, so fuel equal to the list length is sufficient. -/
def strip_year_aux : Nat → List Char → List Char
  | 0, l => l
  | Nat.succ n, l =>
    match l with
    | [] => []
    | c :: rest =>
      match try_match_year (c :: rest) with
      | some rest2 => strip_year_aux n rest2
      | none => c :: strip_year_aux n rest

/-- Python `re.sub(r"\s*(years?|yrs?|year|yr)\s*", "", s)` from
`Validator.validate_experience`: removes every year/yr token together with
surrounding whitespace, anywhere in the string. -/
def strip_year_tokens (l : List Char) : List Char :=
  strip_year_aux l.length l

/-- The `word_to_num` table of `Validator.validate_experience`, in its
insertion order. -/
def WORD_TO_NUM : List (String × Nat) :=
  [("zero", 0), ("one", 1), ("two", 2), ("three", 3), ("four", 4),
   ("five", 5), ("six", 6), ("seven", 7), ("eight", 8), ("nine", 9),
   ("ten", 10), ("eleven", 11), ("twelve", 12), ("thirteen", 13),
   ("fourteen", 14), ("fifteen", 15), ("twenty", 20), ("thirty", 30)]

/-- Range gate of `Validator.validate_experience`; the source checks
`years < 0 or years > 50`, and `years` is never negative here. -/
def experience_range_check (years : Nat) : Bool × String :=
  if years > 50 then (false, "Experience must be between 0 and 50 years.")
  else (true, toString years)

/-- `Validator.validate_experience` from `utils/validators.py`. -/
def validate_experience (experience : String) : Bool × String :=
  if experience = "" then (false, "Experience cannot be empty.")
  else
    let e := strip_year_tokens (pyLower (pyStripL experience.data))
    match digit_runs e with
    | [] =>
      match WORD_TO_NUM.find? (fun p => is_substring p.1.data e) with
      | some p => experience_range_check p.2
      | none => (false, "Please provide a valid number of years (0-50).")
    | d :: _ => experience_range_check (digits_to_nat d)

/-- `Validator.validate_position` from `utils/validators.py`. -/
def validate_position (position : String) : Bool × String :=
  if position = "" then (false, "Position cannot be empty.")
  else
    let p := pyStripL position.data
    if p.length < 3 then (false, "Position must be at least 3 characters long.")
    else (true, (join_with [' '] (pySplitWs p)).asString)

/-- `Validator.validate_location` from `utils/validators.py`. -/
def validate_location (location : String) : Bool × String :=
  if location = "" then (false, "Location cannot be empty.")
  else
    let l := pyStripL location.data
    if l.length < 2 then (false, "Location must be at least 2 characters long.")
    else (true, (join_with [' '] (pySplitWs l)).asString)

/-- `Validator.validate_tech_stack` from `utils/validators.py`. -/
def validate_tech_stack (tech_stack : String) : Bool × String :=
  if tech_stack = "" then (false, "Tech stack cannot be empty.")
  else
    let t := pyStripL tech_stack.data
    if t.length < 2 then (false, "Tech stack must be at least 2 characters long.")
    else
      let pieces := ((split_on_char ',' t).map pyStripL).filter (fun w => !w.isEmpty)
      (true, (join_with [',', ' '] pieces).asString)

/-- `ConversationStage` from `config/settings.py`. -/
inductive ConversationStage where
  | greeting
  | collect_name
  | collect_email
  | collect_phone
  | collect_experience
  | collect_position
  | collect_location
  | collect_tech_stack
  | technical_questions
  | conclusion
  | ended
deriving DecidableEq, BEq

/-- `STAGE_SEQUENCE` from `config/settings.py`. -/
def STAGE_SEQUENCE : List ConversationStage :=
  [ConversationStage.greeting,
   ConversationStage.collect_name,
   ConversationStage.collect_email,
   ConversationStage.collect_phone,
   ConversationStage.collect_experience,
   ConversationStage.collect_position,
   ConversationStage.collect_location,
   ConversationStage.collect_tech_stack,
   ConversationStage.technical_questions,
   ConversationStage.conclusion,
   ConversationStage.ended]

/-- `EXIT_KEYWORDS` from `config/settings.py`. -/
def EXIT_KEYWORDS : List String :=
  ["exit", "quit", "bye", "goodbye", "stop", "end", "cancel", "terminate"]

/-- `ConversationManager.check_exit_keyword`: case-insensitive substring
match of any keyword in the lowered, stripped message. -/
def check_exit_keyword (message : String) : Bool :=
  let message_lower := pyStripL (pyLower message.data)
  EXIT_KEYWORDS.any fun keyword => is_substring keyword.data message_lower

/-- The `candidate_info` mapping of `ConversationManager`, with its fixed
seven keys. -/
structure CandidateInfo where
  name : Option String
  email : Option String
  phone : Option String
  experience : Option String
  position : Option String
  location : Option String
  tech_stack : Option String
deriving DecidableEq

/-- The mutable state of `ConversationManager` together with the
`current_question` slot the app keeps in the Streamlit session state
alongside it.  The wall-clock `start_time` and the per-entry timestamps
are external I/O and are not modelled; a log entry is a (role, content)
pair. -/
structure ConversationManager where
  stage : ConversationStage
  candidate_info : CandidateInfo
  tech_questions_asked : Nat
  tech_questions_answers : List (String × String)
  conversation_history : List (String × String)
  current_question : Option String
  total_questions_to_ask : Nat
  tech_stack_list : List String
deriving DecidableEq

/-- `ConversationManager.__init__`. -/
def init_manager : ConversationManager :=
  { stage := ConversationStage.greeting
    candidate_info :=
      { name := none, email := none, phone := none, experience := none,
        position := none, location := none, tech_stack := none }
    tech_questions_asked := 0
    tech_questions_answers := []
    conversation_history := []
    current_question := none
    total_questions_to_ask := 0
    tech_stack_list := [] }

/-- `ConversationManager.reset`: the source re-runs `__init__` on the same
object. -/
def reset_manager (_cm : ConversationManager) : ConversationManager :=
  init_manager

/-- `ConversationManager.add_message` (timestamp omitted, see above). -/
def add_message (cm : ConversationManager) (role content : String) : ConversationManager :=
  { cm with conversation_history := cm.conversation_history ++ [(role, content)] }

/-- `ConversationManager.get_next_stage`. -/
def get_next_stage (st : ConversationStage) : ConversationStage :=
  let current_index := STAGE_SEQUENCE.findIdx (· == st)
  if current_index < STAGE_SEQUENCE.length - 1 then
    STAGE_SEQUENCE.getD (current_index + 1) ConversationStage.ended
  else ConversationStage.ended

/-- `ConversationManager._prepare_technical_questions`.  The outcome of
`random.randint(min_q, max_q)` is passed in as `draw`; with the default
configuration `get_min_questions() = 3` and `get_max_questions() = 5`. -/
def prepare_technical_questions (draw : Nat) (cm : ConversationManager) : ConversationManager :=
  match cm.candidate_info.tech_stack with
  | none => cm
  | some ts =>
    if ts = "" then cm
    else
      { cm with
        tech_stack_list := (split_on_char ',' ts.data).map fun t => (pyStripL t).asString
        total_questions_to_ask := draw
        tech_questions_asked := 0
        tech_questions_answers := [] }

/-- `ConversationManager.move_to_next_stage`. -/
def move_to_next_stage (draw : Nat) (cm : ConversationManager) : ConversationManager :=
  let cm := { cm with stage := get_next_stage cm.stage }
  if cm.stage = ConversationStage.technical_questions then
    prepare_technical_questions draw cm
  else cm

/-- `ConversationManager.update_candidate_info`: dict update guarded by key
membership. -/
def ci_update (ci : CandidateInfo) (field value : String) : CandidateInfo :=
  if field = "name" then { ci with name := some value }
  else if field = "email" then { ci with email := some value }
  else if field = "phone" then { ci with phone := some value }
  else if field = "experience" then { ci with experience := some value }
  else if field = "position" then { ci with position := some value }
  else if field = "location" then { ci with location := some value }
  else if field = "tech_stack" then { ci with tech_stack := some value }
  else ci

/-- `ConversationManager.update_candidate_info` lifted to the manager. -/
def update_candidate_info (cm : ConversationManager) (field value : String) : ConversationManager :=
  { cm with candidate_info := ci_update cm.candidate_info field value }

/-- `ConversationManager.add_technical_question_answer`. -/
def add_technical_question_answer (cm : ConversationManager) (question answer : String) : ConversationManager :=
  { cm with
    tech_questions_answers := cm.tech_questions_answers ++ [(question, answer)]
    tech_questions_asked := cm.tech_questions_asked + 1 }

/-- `ConversationManager.has_more_technical_questions`. -/
def has_more_technical_questions (cm : ConversationManager) : Bool :=
  cm.tech_questions_asked < cm.total_questions_to_ask

/-- `ConversationManager.get_current_question_number`. -/
def get_current_question_number (cm : ConversationManager) : Nat :=
  cm.tech_questions_asked + 1

/-- `ConversationManager.get_progress`. -/
def get_progress (cm : ConversationManager) : Nat × Nat :=
  (STAGE_SEQUENCE.findIdx (· == cm.stage), STAGE_SEQUENCE.length - 1)

/-- The texts produced by the external `LLMHandler`; they are opaque to the
stage machine and only land in the conversation log or the pending
question slot. -/
structure LLMOracle where
  exit_message : String
  technical_question : Nat → String
  conclusion_message : String
  info_response : String

/-- `validate_and_process_input` from `app.py`: returns
(is_valid, processed_value, error_message). -/
def validate_and_process_input (stage : ConversationStage) (user_input : String) : Bool × String × String :=
  if stage = ConversationStage.collect_name then
    let r := validate_name user_input
    (r.1, r.2, if r.1 then "" else r.2)
  else if stage = ConversationStage.collect_email then
    let r := validate_email user_input
    (r.1, r.2, if r.1 then "" else r.2)
  else if stage = ConversationStage.collect_phone then
    let r := validate_phone user_input
    (r.1, r.2, if r.1 then "" else r.2)
  else if stage = ConversationStage.collect_experience then
    let r := validate_experience user_input
    (r.1, r.2, if r.1 then "" else r.2)
  else if stage = ConversationStage.collect_position then
    let r := validate_position user_input
    (r.1, r.2, if r.1 then "" else r.2)
  else if stage = ConversationStage.collect_location then
    let r := validate_location user_input
    (r.1, r.2, if r.1 then "" else r.2)
  else if stage = ConversationStage.collect_tech_stack then
    let r := validate_tech_stack user_input
    (r.1, r.2, if r.1 then "" else r.2)
  else if stage = ConversationStage.technical_questions then
    if (pyStripL user_input.data).isEmpty then
      (false, "", "Please provide an answer to the question.")
    else (true, (pyStripL user_input.data).asString, "")
  else (true, user_input, "")

/-- `get_field_name_for_stage` from `app.py`. -/
def get_field_name_for_stage (stage : ConversationStage) : String :=
  if stage = ConversationStage.collect_name then "name"
  else if stage = ConversationStage.collect_email then "email"
  else if stage = ConversationStage.collect_phone then "phone"
  else if stage = ConversationStage.collect_experience then "experience"
  else if stage = ConversationStage.collect_position then "position"
  else if stage = ConversationStage.collect_location then "location"
  else if stage = ConversationStage.collect_tech_stack then "tech_stack"
  else ""

/-- `handle_user_message` from `app.py`, restricted to the conversation
state (the duplicate Streamlit `messages` display list mirrors the log and
is not repeated here).  `draw` is the `random.randint` outcome consumed if
the step enters the technical-questions stage, and `llm` supplies the
generated texts. -/
def handle_user_message (llm : LLMOracle) (draw : Nat) (cm : ConversationManager) (user_input : String) : ConversationManager :=
  if check_exit_keyword user_input then
    let cm := add_message cm "user" user_input
    let cm := add_message cm "assistant" llm.exit_message
    { cm with stage := ConversationStage.ended }
  else if cm.stage = ConversationStage.technical_questions then
    -- Python truthiness of `st.session_state.current_question`
    match cm.current_question with
    | none => cm
    | some q =>
      if q = "" then cm
      else
        let cm := add_technical_question_answer cm q user_input
        let cm := add_message cm "user" user_input
        if has_more_technical_questions cm then
          let question := llm.technical_question (get_current_question_number cm)
          let cm := add_message cm "assistant" question
          { cm with current_question := some question }
        else
          let cm := move_to_next_stage draw cm
          let cm := add_message cm "assistant" llm.conclusion_message
          { cm with current_question := none }
  else
    let v := validate_and_process_input cm.stage user_input
    if v.1 = false then
      let cm := add_message cm "user" user_input
      add_message cm "assistant"
        ("I'm sorry, but that doesn't seem right. " ++ v.2.2 ++ " Please try again.")
    else
      let field_name := get_field_name_for_stage cm.stage
      let cm := if field_name = "" then cm else update_candidate_info cm field_name v.2.1
      let cm := add_message cm "user" user_input
      let cm := move_to_next_stage draw cm
      if cm.stage = ConversationStage.technical_questions then
        let question := llm.technical_question 1
        let cm := add_message cm "assistant" question
        { cm with current_question := some question }
      else if cm.stage = ConversationStage.conclusion then
        add_message cm "assistant" llm.conclusion_message
      else
        add_message cm "assistant" llm.info_response

/-- The seven information-collection stages. -/
def is_collection_stage : ConversationStage → Bool
  | ConversationStage.collect_name => true
  | ConversationStage.collect_email => true
  | ConversationStage.collect_phone => true
  | ConversationStage.collect_experience => true
  | ConversationStage.collect_position => true
  | ConversationStage.collect_location => true
  | ConversationStage.collect_tech_stack => true
  | _ => false

/-- The zero-based position of each stage in the fixed eleven-stage
sequence, written out stage by stage as the specification describes it. -/
def stage_index : ConversationStage → Nat
  | ConversationStage.greeting => 0
  | ConversationStage.collect_name => 1
  | ConversationStage.collect_email => 2
  | ConversationStage.collect_phone => 3
  | ConversationStage.collect_experience => 4
  | ConversationStage.collect_position => 5
  | ConversationStage.collect_location => 6
  | ConversationStage.collect_tech_stack => 7
  | ConversationStage.technical_questions => 8
  | ConversationStage.conclusion => 9
  | ConversationStage.ended => 10

/-- A fixed oracle used for concrete runs. -/
def llm0 : LLMOracle :=
  { exit_message := "Thank you for your time. Goodbye."
    technical_question := fun _ => "Describe a project you built."
    conclusion_message := "Thanks, we will be in touch."
    info_response := "Got it." }

/-- A fresh manager positioned at the collect-name stage. -/
def cm_collect_name : ConversationManager :=
  { init_manager with stage := ConversationStage.collect_name }

/-- A fresh manager positioned at the collect-phone stage. -/
def cm_collect_phone : ConversationManager :=
  { init_manager with stage := ConversationStage.collect_phone }

/-- A manager at the start of a technical-question loop with target 3. -/
def cm_loop3 : ConversationManager :=
  { init_manager with
    stage := ConversationStage.technical_questions
    current_question := some "Question one"
    total_questions_to_ask := 3 }

lemma pyStripL_of_all_space {l : List Char} (h : l.all pyIsSpace = true) :
    pyStripL l = [] := by
  have h1 : l.dropWhile pyIsSpace = [] := by
    rw [List.dropWhile_eq_nil_iff]
    intro x hx
    exact List.all_eq_true.mp h x hx
  simp [pyStripL, h1]

lemma experience_range_check_true {y : Nat} {r : String}
    (h : experience_range_check y = (true, r)) : y ≤ 50 ∧ r = toString y := by
  unfold experience_range_check at h
  by_cases hy : y > 50
  · simp [hy] at h
  · simp [hy] at h
    exact ⟨by omega, h.symm⟩

lemma phonenumbers_parse_none {l : List Char} (h : l.head? ≠ some '+') :
    phonenumbers_parse l = none := by
  cases l with
  | nil => rfl
  | cons c t =>
    have hc : c ≠ '+' := by
      intro hc
      exact h (by simp [hc])
    simp [phonenumbers_parse, hc]

/-- C10: with no digits present, the experience validator scans the
number-word table in its fixed insertion order and takes the first word
occurring as a substring, so "fourteen" resolves to the value of "four":
it is accepted and normalized to "4", not "14". -/
theorem claim_C10 :
    validate_experience "fourteen" = (true, "4") ∧ ("4" : String) ≠ "14" := by
  decide

/-- C5 counterexample: the claim says the extracted integer is the first
digit sequence found in the input after stripping only trailing year/yr
tokens, which for "1 year 2" (first digit sequence "1", no trailing year
token) predicts the normalized value "1"; the code removes the year token
in the middle of the string, merging the two digit runs, and returns
"12". -/
theorem claim_C5_counterexample :
    validate_experience "1 year 2" = (true, "12") ∧
    (digit_runs ("1 year 2").data).head? = some ['1'] ∧
    strip_year_tokens (pyLower (pyStripL ("1 year 2").data)) = ['1', '2'] ∧
    ("12" : String) ≠ "1" := by
  decide

/-- C5 (amended): the experience validator removes every year/yr token
(with surrounding whitespace) anywhere in the input — a removal that can
merge digit sequences separated only by such a token — then takes the
first digit sequence of the resulting string (not the largest or last);
with no digit sequence it matches the fixed number-word table as
substrings; it rejects when no integer is resolvable or the value exceeds
50, and every accepted input is normalized to the decimal string of an
integer in [0, 50].  In particular "three years" is accepted as "3" and
"75" is rejected. -/
theorem claim_C5_amended :
    validate_experience "three years" = (true, "3") ∧
    (validate_experience "75").1 = false ∧
    validate_experience "3 and 40" = (true, "3") ∧
    validate_experience "two 7" = (true, "7") ∧
    (validate_experience "abc").1 = false ∧
    (∀ s r, validate_experience s = (true, r) → ∃ n, n ≤ 50 ∧ r = toString n) := by
  refine ⟨by decide, by decide, by decide, by decide, by decide, ?_⟩
  intro s r h
  by_cases hs : s = ""
  · subst hs; simp [validate_experience] at h
  · simp only [validate_experience, if_neg hs] at h
    rcases hdr : digit_runs (strip_year_tokens (pyLower (pyStripL s.data))) with _ | ⟨d, rest⟩ <;>
      rw [hdr] at h
    · rcases hf : WORD_TO_NUM.find?
          (fun p => is_substring p.1.data (strip_year_tokens (pyLower (pyStripL s.data)))) with _ | p <;>
        rw [hf] at h
      · simp at h
      · obtain ⟨h1, h2⟩ := experience_range_check_true h
        exact ⟨p.2, h1, h2⟩
    · obtain ⟨h1, h2⟩ := experience_range_check_true h
      exact ⟨digits_to_nat d, h1, h2⟩

/-- C5 witness: the general acceptance clause of the amended claim applied
at the concrete accepted input "three years". -/
theorem claim_C5_witness : ∃ n, n ≤ 50 ∧ ("3" : String) = toString n := by
  have h := claim_C5_amended
  exact h.2.2.2.2.2 "three years" "3" (by decide)

/-- C6: the phone validator rejects every input whose stripped form does
not begin with an explicit plus-introduced country code (no implicit
default region), and every accepted number is returned in international
format; in particular "1234567" is rejected and "+1 234 567 8900" is
accepted as "+1 234-567-8900".  The external phonenumbers library is
modelled from the spec. -/
theorem claim_C6 :
    (∀ s : String, (pyStripL s.data).head? ≠ some '+' → (validate_phone s).1 = false) ∧
    (validate_phone "1234567").1 = false ∧
    validate_phone "+1 234 567 8900" = (true, "+1 234-567-8900") ∧
    (∀ s r, validate_phone s = (true, r) →
       ∃ ds, phonenumbers_parse (pyStripL s.data) = some ds ∧
         phonenumbers_is_valid ds = true ∧ r = phonenumbers_format_international ds) := by
  refine ⟨?_, by decide, by decide, ?_⟩
  · intro s h
    by_cases hs : s = ""
    · subst hs; decide
    · simp only [validate_phone, if_neg hs, phonenumbers_parse_none h]
  · intro s r h
    by_cases hs : s = ""
    · subst hs; simp [validate_phone] at h
    · simp only [validate_phone, if_neg hs] at h
      split at h
      · simp at h
      · rename_i ds hp
        split at h
        · rename_i hv
          have hr : r = phonenumbers_format_international ds := by
            have h2 := congrArg Prod.snd h
            simpa using h2.symm
          exact ⟨ds, hp, hv, hr⟩
        · have h1 := congrArg Prod.fst h
          simp at h1

/-- C6 witness: the country-code clause applied at the concrete input
"1234567", whose stripped form starts with the digit 1 rather than a
plus sign. -/
theorem claim_C6_witness : (validate_phone "07700 900123").1 = false := by
  have h := claim_C6
  exact h.1 "07700 900123" (by decide)

/-- C7: each of the seven field validators rejects an input that is empty
or consists only of whitespace.  The email and phone branches go through
the spec-modelled external libraries for the whitespace-only case. -/
theorem claim_C7 (s : String) (h : s.data.all pyIsSpace = true) :
    (validate_name s).1 = false ∧ (validate_email s).1 = false ∧
    (validate_phone s).1 = false ∧ (validate_experience s).1 = false ∧
    (validate_position s).1 = false ∧ (validate_location s).1 = false ∧
    (validate_tech_stack s).1 = false := by
  have hstrip : pyStripL s.data = [] := pyStripL_of_all_space h
  by_cases hs : s = ""
  · subst hs; decide
  · refine ⟨?_, ?_, ?_, ?_, ?_, ?_, ?_⟩ <;>
      simp only [validate_name, validate_email, validate_phone, validate_experience,
        validate_position, validate_location, validate_tech_stack, if_neg hs, hstrip] <;>
      decide

/-- C7 witness: the rejection of a concrete whitespace-only input at all
seven validators. -/
theorem claim_C7_witness :
    (validate_name "   ").1 = false ∧ (validate_email "   ").1 = false ∧
    (validate_phone "   ").1 = false ∧ (validate_experience "   ").1 = false ∧
    (validate_position "   ").1 = false ∧ (validate_location "   ").1 = false ∧
    (validate_tech_stack "   ").1 = false :=
  claim_C7 "   " (by decide)

/-- C8: the name validator accepts exactly the inputs whose stripped form
has length at least 2 and draws all its characters from letters,
whitespace, periods, hyphens and apostrophes, and it normalizes by
collapsing whitespace runs and title-casing; in particular
"  john   o'brien  " is accepted and normalized to "John O'Brien". -/
theorem claim_C8 :
    (∀ s : String, (validate_name s).1 = true ↔
       2 ≤ (pyStripL s.data).length ∧ (pyStripL s.data).all name_char_ok = true) ∧
    validate_name "  john   o'brien  " = (true, "John O'Brien") := by
  constructor
  · intro s
    by_cases hs : s = ""
    · subst hs; decide
    · simp only [validate_name, if_neg hs]
      split_ifs with h1 h2
      · exact ⟨fun hh => absurd hh (by decide), fun hc => absurd hc.1 (by omega)⟩
      · exact ⟨fun _ => ⟨by omega, h2⟩, fun _ => rfl⟩
      · exact ⟨fun hh => absurd hh (by decide), fun hc => absurd hc.2 h2⟩
  · decide

/-- C8 witness: the acceptance characterisation applied at the concrete
input "ab". -/
theorem claim_C8_witness : (validate_name "ab").1 = true := by
  have h := claim_C8
  exact (h.1 "ab").mpr (by decide)

/-- C9: resetting reinitializes the stage, the candidate record, the
technical-question loop and the conversation log to their start values,
and the result equals a freshly constructed manager, for every state —
there is no partial reset. -/
theorem claim_C9 (cm : ConversationManager) :
    reset_manager cm = init_manager ∧
    (reset_manager cm).stage = ConversationStage.greeting ∧
    (reset_manager cm).candidate_info =
      { name := none, email := none, phone := none, experience := none,
        position := none, location := none, tech_stack := none } ∧
    (reset_manager cm).tech_questions_asked = 0 ∧
    (reset_manager cm).tech_questions_answers = [] ∧
    (reset_manager cm).total_questions_to_ask = 0 ∧
    (reset_manager cm).current_question = none ∧
    (reset_manager cm).conversation_history = [] ∧
    (reset_manager cm).tech_stack_list = [] :=
  ⟨rfl, rfl, rfl, rfl, rfl, rfl, rfl, rfl, rfl⟩

@[simp] lemma add_message_stage (cm : ConversationManager) (r c : String) :
    (add_message cm r c).stage = cm.stage := rfl

@[simp] lemma add_message_candidate_info (cm : ConversationManager) (r c : String) :
    (add_message cm r c).candidate_info = cm.candidate_info := rfl

@[simp] lemma add_message_asked (cm : ConversationManager) (r c : String) :
    (add_message cm r c).tech_questions_asked = cm.tech_questions_asked := rfl

@[simp] lemma add_message_answers (cm : ConversationManager) (r c : String) :
    (add_message cm r c).tech_questions_answers = cm.tech_questions_answers := rfl

@[simp] lemma add_message_current_question (cm : ConversationManager) (r c : String) :
    (add_message cm r c).current_question = cm.current_question := rfl

@[simp] lemma add_message_total (cm : ConversationManager) (r c : String) :
    (add_message cm r c).total_questions_to_ask = cm.total_questions_to_ask := rfl

@[simp] lemma add_tqa_stage (cm : ConversationManager) (q a : String) :
    (add_technical_question_answer cm q a).stage = cm.stage := rfl

@[simp] lemma add_tqa_candidate_info (cm : ConversationManager) (q a : String) :
    (add_technical_question_answer cm q a).candidate_info = cm.candidate_info := rfl

@[simp] lemma add_tqa_asked (cm : ConversationManager) (q a : String) :
    (add_technical_question_answer cm q a).tech_questions_asked = cm.tech_questions_asked + 1 := rfl

@[simp] lemma add_tqa_answers (cm : ConversationManager) (q a : String) :
    (add_technical_question_answer cm q a).tech_questions_answers =
      cm.tech_questions_answers ++ [(q, a)] := rfl

@[simp] lemma add_tqa_current_question (cm : ConversationManager) (q a : String) :
    (add_technical_question_answer cm q a).current_question = cm.current_question := rfl

@[simp] lemma add_tqa_total (cm : ConversationManager) (q a : String) :
    (add_technical_question_answer cm q a).total_questions_to_ask = cm.total_questions_to_ask := rfl

@[simp] lemma update_candidate_info_stage (cm : ConversationManager) (f v : String) :
    (update_candidate_info cm f v).stage = cm.stage := rfl

@[simp] lemma update_candidate_info_asked (cm : ConversationManager) (f v : String) :
    (update_candidate_info cm f v).tech_questions_asked = cm.tech_questions_asked := rfl

@[simp] lemma update_candidate_info_answers (cm : ConversationManager) (f v : String) :
    (update_candidate_info cm f v).tech_questions_answers = cm.tech_questions_answers := rfl

@[simp] lemma update_candidate_info_current_question (cm : ConversationManager) (f v : String) :
    (update_candidate_info cm f v).current_question = cm.current_question := rfl

@[simp] lemma update_candidate_info_total (cm : ConversationManager) (f v : String) :
    (update_candidate_info cm f v).total_questions_to_ask = cm.total_questions_to_ask := rfl

lemma prepare_stage (draw : Nat) (cm : ConversationManager) :
    (prepare_technical_questions draw cm).stage = cm.stage := by
  cases h : cm.candidate_info.tech_stack with
  | none => simp [prepare_technical_questions, h]
  | some ts =>
    simp only [prepare_technical_questions, h]
    split <;> rfl

lemma prepare_candidate_info (draw : Nat) (cm : ConversationManager) :
    (prepare_technical_questions draw cm).candidate_info = cm.candidate_info := by
  cases h : cm.candidate_info.tech_stack with
  | none => simp [prepare_technical_questions, h]
  | some ts =>
    simp only [prepare_technical_questions, h]
    split <;> rfl

lemma prepare_current_question (draw : Nat) (cm : ConversationManager) :
    (prepare_technical_questions draw cm).current_question = cm.current_question := by
  cases h : cm.candidate_info.tech_stack with
  | none => simp [prepare_technical_questions, h]
  | some ts =>
    simp only [prepare_technical_questions, h]
    split <;> rfl

@[simp] lemma move_stage (draw : Nat) (cm : ConversationManager) :
    (move_to_next_stage draw cm).stage = get_next_stage cm.stage := by
  simp only [move_to_next_stage]
  split
  · rw [prepare_stage]
  · rfl

lemma move_candidate_info (draw : Nat) (cm : ConversationManager) :
    (move_to_next_stage draw cm).candidate_info = cm.candidate_info := by
  simp only [move_to_next_stage]
  split
  · rw [prepare_candidate_info]
  · rfl

lemma move_current_question (draw : Nat) (cm : ConversationManager) :
    (move_to_next_stage draw cm).current_question = cm.current_question := by
  simp only [move_to_next_stage]
  split
  · rw [prepare_current_question]
  · rfl

lemma move_from_technical (draw : Nat) (cm : ConversationManager)
    (h : cm.stage = ConversationStage.technical_questions) :
    move_to_next_stage draw cm = { cm with stage := ConversationStage.conclusion } := by
  have hnext : get_next_stage ConversationStage.technical_questions = ConversationStage.conclusion := by
    decide
  simp [move_to_next_stage, h, hnext]

/-- C1: an input containing an exit keyword, submitted at any stage other
than ended, moves the machine directly to the ended stage: no candidate
field is stored and the technical-question loop records are left behind
untouched (no pair is appended, the counters and the pending question are
unchanged). -/
theorem claim_C1 (llm : LLMOracle) (draw : Nat) (cm : ConversationManager) (input : String)
    (hstage : cm.stage ≠ ConversationStage.ended)
    (hexit : check_exit_keyword input = true) :
    (handle_user_message llm draw cm input).stage = ConversationStage.ended ∧
    (handle_user_message llm draw cm input).candidate_info = cm.candidate_info ∧
    (handle_user_message llm draw cm input).tech_questions_answers = cm.tech_questions_answers ∧
    (handle_user_message llm draw cm input).tech_questions_asked = cm.tech_questions_asked ∧
    (handle_user_message llm draw cm input).total_questions_to_ask = cm.total_questions_to_ask ∧
    (handle_user_message llm draw cm input).current_question = cm.current_question := by
  simp [handle_user_message, hexit]

/-- C1 witness: at stage collect_phone the input "actually, bye" ends the
conversation and no phone value is stored. -/
theorem claim_C1_witness :
    (handle_user_message llm0 3 cm_collect_phone "actually, bye").stage = ConversationStage.ended ∧
    (handle_user_message llm0 3 cm_collect_phone "actually, bye").candidate_info.phone = none := by
  have h := claim_C1 llm0 3 cm_collect_phone "actually, bye" (by decide) (by decide)
  refine ⟨h.1, ?_⟩
  rw [h.2.1]
  rfl

/-- C2 counterexample: at the collect_name stage the raw input "bye!" is
rejected by the name validator, yet submitting it does not leave the
machine state unchanged — the exit-keyword check runs first and moves the
stage to ended. -/
theorem claim_C2_counterexample :
    (validate_and_process_input ConversationStage.collect_name "bye!").1 = false ∧
    (handle_user_message llm0 3 cm_collect_name "bye!").stage ≠ cm_collect_name.stage := by
  decide

lemma invalid_collection_step (llm : LLMOracle) (draw : Nat) (cm : ConversationManager)
    (input : String)
    (hst : is_collection_stage cm.stage = true)
    (hexit : check_exit_keyword input = false)
    (hval : (validate_and_process_input cm.stage input).1 = false) :
    (handle_user_message llm draw cm input).stage = cm.stage ∧
    (handle_user_message llm draw cm input).candidate_info = cm.candidate_info ∧
    (handle_user_message llm draw cm input).tech_questions_asked = cm.tech_questions_asked ∧
    (handle_user_message llm draw cm input).tech_questions_answers = cm.tech_questions_answers ∧
    (handle_user_message llm draw cm input).total_questions_to_ask = cm.total_questions_to_ask ∧
    (handle_user_message llm draw cm input).current_question = cm.current_question := by
  have hne : cm.stage ≠ ConversationStage.technical_questions := by
    intro h; rw [h] at hst; simp [is_collection_stage] at hst
  simp [handle_user_message, hexit, hne, hval]

/-- C2 (amended): for every collection stage, any sequence of submissions
each of which contains no exit keyword and is rejected by that stage's
validator leaves the CandidateRecord, the Stage and the
technical-question loop counters unchanged. -/
theorem claim_C2_amended (llm : LLMOracle) (draw : Nat) (cm : ConversationManager)
    (inputs : List String)
    (hst : is_collection_stage cm.stage = true)
    (h : ∀ i ∈ inputs, check_exit_keyword i = false ∧
           (validate_and_process_input cm.stage i).1 = false) :
    (inputs.foldl (handle_user_message llm draw) cm).stage = cm.stage ∧
    (inputs.foldl (handle_user_message llm draw) cm).candidate_info = cm.candidate_info ∧
    (inputs.foldl (handle_user_message llm draw) cm).tech_questions_asked =
      cm.tech_questions_asked ∧
    (inputs.foldl (handle_user_message llm draw) cm).tech_questions_answers =
      cm.tech_questions_answers ∧
    (inputs.foldl (handle_user_message llm draw) cm).total_questions_to_ask =
      cm.total_questions_to_ask := by
  induction inputs generalizing cm with
  | nil => exact ⟨rfl, rfl, rfl, rfl, rfl⟩
  | cons i rest ih =>
    have hi := h i (List.mem_cons_self i rest)
    have hstep := invalid_collection_step llm draw cm i hst hi.1 hi.2
    have hst' : is_collection_stage (handle_user_message llm draw cm i).stage = true := by
      rw [hstep.1]; exact hst
    have h' : ∀ j ∈ rest, check_exit_keyword j = false ∧
        (validate_and_process_input (handle_user_message llm draw cm i).stage j).1 = false := by
      intro j hj
      rw [hstep.1]
      exact h j (List.mem_cons_of_mem i hj)
    have hrest := ih (handle_user_message llm draw cm i) hst' h'
    rw [List.foldl_cons]
    exact ⟨hrest.1.trans hstep.1, hrest.2.1.trans hstep.2.1,
      hrest.2.2.1.trans hstep.2.2.1, hrest.2.2.2.1.trans hstep.2.2.2.1,
      hrest.2.2.2.2.trans hstep.2.2.2.2.1⟩

/-- C2 witness: two repeated rejected submissions at the collect_name
stage leave the stage and the candidate record unchanged. -/
theorem claim_C2_witness :
    (["x", "y"].foldl (handle_user_message llm0 3) cm_collect_name).stage =
      cm_collect_name.stage ∧
    (["x", "y"].foldl (handle_user_message llm0 3) cm_collect_name).candidate_info =
      cm_collect_name.candidate_info := by
  have h := claim_C2_amended llm0 3 cm_collect_name ["x", "y"] (by decide) (by decide)
  exact ⟨h.1, h.2.1⟩

lemma stage_index_eq_findIdx (st : ConversationStage) :
    STAGE_SEQUENCE.findIdx (· == st) = stage_index st := by
  cases st <;> rfl

lemma stage_index_le_ten (st : ConversationStage) : stage_index st ≤ 10 := by
  cases st <;> decide

lemma stage_index_next_ge (st : ConversationStage) :
    stage_index st ≤ stage_index (get_next_stage st) := by
  cases st <;> decide

lemma collection_next_index (st : ConversationStage) (h : is_collection_stage st = true) :
    stage_index (get_next_stage st) = stage_index st + 1 := by
  cases st <;> revert h <;> decide

lemma collection_ne_technical (st : ConversationStage) (h : is_collection_stage st = true) :
    st ≠ ConversationStage.technical_questions := by
  cases st <;> revert h <;> decide

lemma valid_step_stage (llm : LLMOracle) (draw : Nat) (cm : ConversationManager)
    (input : String)
    (hne : cm.stage ≠ ConversationStage.technical_questions)
    (hexit : check_exit_keyword input = false)
    (hval : (validate_and_process_input cm.stage input).1 = true) :
    (handle_user_message llm draw cm input).stage = get_next_stage cm.stage := by
  simp only [handle_user_message, hexit, Bool.false_eq_true, if_false, if_neg hne, hval]
  split
  · rename_i hcontra
    exact absurd hcontra (by decide)
  · split
    · split
      · simp
      · split <;> simp
    · split
      · simp
      · split <;> simp

lemma handle_stage_cases (llm : LLMOracle) (draw : Nat) (cm : ConversationManager)
    (input : String) :
    (handle_user_message llm draw cm input).stage = cm.stage ∨
    (handle_user_message llm draw cm input).stage = ConversationStage.ended ∨
    (handle_user_message llm draw cm input).stage = get_next_stage cm.stage := by
  by_cases hexit : check_exit_keyword input = true
  · right; left; simp [handle_user_message, hexit]
  · rw [Bool.not_eq_true] at hexit
    by_cases hts : cm.stage = ConversationStage.technical_questions
    · simp only [handle_user_message, hexit, Bool.false_eq_true, if_false, if_pos hts]
      cases hq : cm.current_question with
      | none => left; rfl
      | some q =>
        by_cases hqe : q = ""
        · left; simp [hqe]
        · simp only [if_neg hqe]
          split
          · left; simp [hts]
          · right; right
            simp [hts]
    · by_cases hval : (validate_and_process_input cm.stage input).1 = true
      · right; right
        exact valid_step_stage llm draw cm input hts hexit hval
      · left
        rw [Bool.not_eq_true] at hval
        simp [handle_user_message, hexit, if_neg hts, hval]

/-- C4: progress() returns the zero-based index of the current stage in
the fixed eleven-stage sequence together with the constant total 10 (the
sequence length minus one, excluding the terminal ended stage); a
successful submission at a collection stage (no exit keyword, validator
accepts) increases the step by exactly 1; and no submission ever
decreases the step. -/
theorem claim_C4 :
    (∀ cm : ConversationManager, get_progress cm = (stage_index cm.stage, 10)) ∧
    (∀ (llm : LLMOracle) (draw : Nat) (cm : ConversationManager) (input : String),
       is_collection_stage cm.stage = true →
       check_exit_keyword input = false →
       (validate_and_process_input cm.stage input).1 = true →
       (get_progress (handle_user_message llm draw cm input)).1 = (get_progress cm).1 + 1) ∧
    (∀ (llm : LLMOracle) (draw : Nat) (cm : ConversationManager) (input : String),
       (get_progress cm).1 ≤ (get_progress (handle_user_message llm draw cm input)).1) := by
  have hfst : ∀ cm : ConversationManager, (get_progress cm).1 = stage_index cm.stage := by
    intro cm
    simp [get_progress, stage_index_eq_findIdx]
  refine ⟨?_, ?_, ?_⟩
  · intro cm
    unfold get_progress
    rw [stage_index_eq_findIdx]
    rfl
  · intro llm draw cm input hst hexit hval
    rw [hfst, hfst,
      valid_step_stage llm draw cm input (collection_ne_technical cm.stage hst) hexit hval]
    exact collection_next_index cm.stage hst
  · intro llm draw cm input
    rw [hfst, hfst]
    rcases handle_stage_cases llm draw cm input with h | h | h <;> rw [h]
    · exact stage_index_le_ten cm.stage
    · exact stage_index_next_ge cm.stage

/-- C4 witness: a successful name submission at the collect_name stage
moves the progress step from 1 to 2. -/
theorem claim_C4_witness :
    (get_progress (handle_user_message llm0 3 cm_collect_name "John")).1 =
      (get_progress cm_collect_name).1 + 1 := by
  have h := claim_C4
  exact h.2.1 llm0 3 cm_collect_name "John" (by decide) (by decide) (by decide)

lemma loop_step (llm : LLMOracle) (draw : Nat) (T : Nat)
    (hllm : ∀ n, llm.technical_question n ≠ "")
    (cm : ConversationManager) (q input : String)
    (hst : cm.stage = ConversationStage.technical_questions)
    (hq : cm.current_question = some q) (hqne : q ≠ "")
    (htot : cm.total_questions_to_ask = T)
    (hlt : cm.tech_questions_asked < T)
    (hexit : check_exit_keyword input = false) :
    (handle_user_message llm draw cm input).tech_questions_asked =
      cm.tech_questions_asked + 1 ∧
    (handle_user_message llm draw cm input).tech_questions_answers =
      cm.tech_questions_answers ++ [(q, input)] ∧
    (handle_user_message llm draw cm input).total_questions_to_ask = T ∧
    (cm.tech_questions_asked + 1 < T →
       (handle_user_message llm draw cm input).stage = ConversationStage.technical_questions ∧
       ∃ q2, (handle_user_message llm draw cm input).current_question = some q2 ∧ q2 ≠ "") ∧
    (cm.tech_questions_asked + 1 = T →
       (handle_user_message llm draw cm input).stage = ConversationStage.conclusion ∧
       (handle_user_message llm draw cm input).current_question = none) := by
  simp only [handle_user_message, hexit, Bool.false_eq_true, if_false, if_pos hst, hq,
    if_neg hqne]
  by_cases hlt2 : cm.tech_questions_asked + 1 < T
  · rw [if_pos (show has_more_technical_questions
        (add_message (add_technical_question_answer cm q input) "user" input) = true by
      simp [has_more_technical_questions, htot, hlt2])]
    refine ⟨by simp, by simp, by simp [htot], ?_, ?_⟩
    · intro _
      exact ⟨by simp [hst], ⟨llm.technical_question
        (get_current_question_number (add_message (add_technical_question_answer cm q input) "user" input)),
        by simp, hllm _⟩⟩
    · intro heq
      omega
  · have heq1 : cm.tech_questions_asked + 1 = T := by omega
    rw [if_neg (show ¬ has_more_technical_questions
        (add_message (add_technical_question_answer cm q input) "user" input) = true by
      simp [has_more_technical_questions, htot]; omega)]
    have hcm2 : (add_message (add_technical_question_answer cm q input) "user" input).stage =
        ConversationStage.technical_questions := by simp [hst]
    rw [move_from_technical draw _ hcm2]
    refine ⟨by simp, by simp, by simp [htot], ?_, ?_⟩
    · intro h2
      omega
    · intro _
      constructor
      · rfl
      · rfl

lemma loop_run (llm : LLMOracle) (draw : Nat) (T : Nat)
    (hllm : ∀ n, llm.technical_question n ≠ "") :
    ∀ (inputs : List String) (cm : ConversationManager) (q : String),
      inputs ≠ [] →
      cm.stage = ConversationStage.technical_questions →
      cm.current_question = some q →
      q ≠ "" →
      cm.total_questions_to_ask = T →
      cm.tech_questions_asked = cm.tech_questions_answers.length →
      cm.tech_questions_asked + inputs.length ≤ T →
      (∀ i ∈ inputs, check_exit_keyword i = false) →
      (inputs.foldl (handle_user_message llm draw) cm).total_questions_to_ask = T ∧
      (inputs.foldl (handle_user_message llm draw) cm).tech_questions_asked =
        cm.tech_questions_asked + inputs.length ∧
      (inputs.foldl (handle_user_message llm draw) cm).tech_questions_asked =
        (inputs.foldl (handle_user_message llm draw) cm).tech_questions_answers.length ∧
      (cm.tech_questions_asked + inputs.length < T →
         (inputs.foldl (handle_user_message llm draw) cm).stage =
           ConversationStage.technical_questions ∧
         ∃ q2, (inputs.foldl (handle_user_message llm draw) cm).current_question = some q2 ∧
           q2 ≠ "") ∧
      (cm.tech_questions_asked + inputs.length = T →
         (inputs.foldl (handle_user_message llm draw) cm).stage = ConversationStage.conclusion ∧
         (inputs.foldl (handle_user_message llm draw) cm).current_question = none) := by
  intro inputs
  induction inputs with
  | nil =>
    intro cm q hnil
    exact absurd rfl hnil
  | cons i rest ih =>
    intro cm q _ hst hq hqne htot hinv hlen hex
    have hlt : cm.tech_questions_asked < T := by
      simp only [List.length_cons] at hlen
      omega
    have hstep := loop_step llm draw T hllm cm q i hst hq hqne htot hlt
      (hex i (List.mem_cons_self i rest))
    rw [List.foldl_cons]
    rcases hrest : rest with _ | ⟨j, rest2⟩
    · subst hrest
      simp only [List.foldl_nil, List.length_cons, List.length_nil, Nat.zero_add]
      refine ⟨hstep.2.2.1, by rw [hstep.1], ?_, hstep.2.2.2.1, hstep.2.2.2.2⟩
      rw [hstep.1, hstep.2.1]
      simp [hinv]
    · subst hrest
      have hlen1 : cm.tech_questions_asked + 1 < T := by
        simp only [List.length_cons] at hlen
        omega
      obtain ⟨hst2, q2, hq2, hq2ne⟩ := hstep.2.2.2.1 hlen1
      have hinv2 : (handle_user_message llm draw cm i).tech_questions_asked =
          (handle_user_message llm draw cm i).tech_questions_answers.length := by
        rw [hstep.1, hstep.2.1]
        simp [hinv]
      have hlen2 : (handle_user_message llm draw cm i).tech_questions_asked +
          (j :: rest2).length ≤ T := by
        rw [hstep.1]
        simp only [List.length_cons] at hlen ⊢
        omega
      have hex2 : ∀ x ∈ j :: rest2, check_exit_keyword x = false := by
        intro x hx
        exact hex x (List.mem_cons_of_mem i hx)
      have hres := ih (handle_user_message llm draw cm i) q2 (by simp) hst2 hq2 hq2ne
        hstep.2.2.1 hinv2 hlen2 hex2
      refine ⟨hres.1, ?_, hres.2.2.1, ?_, ?_⟩
      · rw [hres.2.1, hstep.1]
        simp only [List.length_cons]
        omega
      · intro hcond
        apply hres.2.2.2.1
        rw [hstep.1]
        simp only [List.length_cons] at hcond ⊢
        omega
      · intro hcond
        apply hres.2.2.2.2
        rw [hstep.1]
        simp only [List.length_cons] at hcond ⊢
        omega

/-- C3: once the technical-question loop has initialized with a drawn
target count T (3 ≤ T ≤ 5 under the default configuration) and a pending
non-empty first question, feeding it T non-empty, non-exit answers makes
the stage advance to conclusion with the question/answer pair list of
length exactly T; the target is never re-drawn at any intermediate point,
the asked counter always equals the pair-list length, and the loop is
exhausted exactly when the asked counter reaches T. -/
theorem claim_C3 (llm : LLMOracle) (draw : Nat) (cm0 : ConversationManager) (T : Nat)
    (q0 : String)
    (hT3 : 3 ≤ T) (hT5 : T ≤ 5)
    (hstage : cm0.stage = ConversationStage.technical_questions)
    (hq0 : cm0.current_question = some q0) (hq0ne : q0 ≠ "")
    (hasked : cm0.tech_questions_asked = 0)
    (hans : cm0.tech_questions_answers = [])
    (htot : cm0.total_questions_to_ask = T)
    (hllm : ∀ n, llm.technical_question n ≠ "")
    (inputs : List String) (hlen : inputs.length = T)
    (hne : ∀ i ∈ inputs, pyStripL i.data ≠ [])
    (hexit : ∀ i ∈ inputs, check_exit_keyword i = false) :
    (inputs.foldl (handle_user_message llm draw) cm0).stage = ConversationStage.conclusion ∧
    (inputs.foldl (handle_user_message llm draw) cm0).tech_questions_answers.length = T ∧
    (inputs.foldl (handle_user_message llm draw) cm0).total_questions_to_ask = T ∧
    (∀ pre suf, inputs = pre ++ suf →
       (pre.foldl (handle_user_message llm draw) cm0).total_questions_to_ask = T ∧
       (pre.foldl (handle_user_message llm draw) cm0).tech_questions_asked =
         (pre.foldl (handle_user_message llm draw) cm0).tech_questions_answers.length ∧
       ((has_more_technical_questions (pre.foldl (handle_user_message llm draw) cm0) = false) ↔
         (pre.foldl (handle_user_message llm draw) cm0).tech_questions_asked = T)) := by
  have hnil : inputs ≠ [] := by
    intro h
    rw [h] at hlen
    simp at hlen
    omega
  have hinv0 : cm0.tech_questions_asked = cm0.tech_questions_answers.length := by
    rw [hasked, hans]
    rfl
  have hmain := loop_run llm draw T hllm inputs cm0 q0 hnil hstage hq0 hq0ne htot hinv0
    (by rw [hasked, hlen]; omega) hexit
  have hfinal := hmain.2.2.2.2 (by rw [hasked, hlen]; omega)
  refine ⟨hfinal.1, ?_, hmain.1, ?_⟩
  · have h1 := hmain.2.1
    have h2 := hmain.2.2.1
    rw [hasked, hlen] at h1
    omega
  · intro pre suf hsplit
    rcases hpre : pre with _ | ⟨p, pre2⟩
    · subst hpre
      simp only [List.foldl_nil]
      refine ⟨htot, hinv0, ?_⟩
      simp only [has_more_technical_questions, hasked, htot, decide_eq_false_iff_not]
      omega
    · subst hpre
      have hprelen : (p :: pre2).length ≤ T := by
        rw [← hlen, hsplit]
        simp
      have hpre_ex : ∀ x ∈ p :: pre2, check_exit_keyword x = false := by
        intro x hx
        apply hexit
        rw [hsplit]
        exact List.mem_append_left suf hx
      have hres := loop_run llm draw T hllm (p :: pre2) cm0 q0 (by simp) hstage hq0 hq0ne
        htot hinv0 (by rw [hasked]; omega) hpre_ex
      refine ⟨hres.1, hres.2.2.1, ?_⟩
      have ha := hres.2.1
      rw [hasked] at ha
      simp only [has_more_technical_questions, hres.1, ha, decide_eq_false_iff_not]
      omega

/-- C3 witness: a concrete loop with target 3 and three answers reaches
the conclusion stage with exactly three recorded pairs. -/
theorem claim_C3_witness :
    (["Answer one", "Answer two", "Answer three"].foldl
        (handle_user_message llm0 5) cm_loop3).stage = ConversationStage.conclusion ∧
    (["Answer one", "Answer two", "Answer three"].foldl
        (handle_user_message llm0 5) cm_loop3).tech_questions_answers.length = 3 := by
  have hq : ∀ n, llm0.technical_question n ≠ "" := by
    intro n hcontra
    have h2 : ("Describe a project you built." : String) = "" := hcontra
    exact absurd h2 (by decide)
  have h := claim_C3 llm0 5 cm_loop3 3 "Question one" (by decide) (by decide) rfl rfl
    (by decide) rfl rfl rfl hq
    ["Answer one", "Answer two", "Answer three"] rfl (by decide) (by decide)
  exact ⟨h.1, h.2.1⟩
